import Mathlib

/-!
Verification of the WanderStay demand-aware price recommendation engine.

The development shallowly embeds the pricing pipeline:
* the Supabase edge function (`getPriceInsightFromGemini`, the `serve`
  orchestrator with its cache lookup, demand computation, persistence and
  error handling), and
* the client-side demand model (`src/lib/demand.ts`: `parseEvents`,
  `getEventImpact`, `calculateDemandContext`, `calculatePriceRange`) together
  with the date helpers of `src/lib/utils.ts`.

JavaScript numbers are modelled as exact rationals (`ℚ`), `Math.round` as
`jsRound` below, and JS `Date` values restricted to the UTC calendar dates
the pipeline actually constructs (ISO `YYYY-MM-DD` strings).  Fallible
steps return `Option`/`Except`.
-/

namespace WanderStay

/-- JS `Math.round`: round half towards positive infinity. -/
def jsRound (q : ℚ) : ℤ := ⌊q + 1/2⌋

/-- A calendar date, as produced by `new Date("YYYY-MM-DD")` (UTC midnight).
`m` is 1–12, matching `getMonth() + 1` in the source. -/
structure Date where
  y : Nat
  m : Nat
  d : Nat
deriving DecidableEq, Repr

/-- JS `Date` comparison (`<=`) for valid dates: chronological order. -/
def Date.le (a b : Date) : Bool :=
  Nat.blt a.y b.y || (a.y == b.y && (Nat.blt a.m b.m || (a.m == b.m && Nat.ble a.d b.d)))

def isDigitChar (c : Char) : Bool := '0' ≤ c && c ≤ '9'

def digitVal (c : Char) : Nat := c.toNat - '0'.toNat

def daysInMonth (y m : Nat) : Nat :=
  if m == 2 then
    (if y % 4 == 0 && (y % 100 != 0 || y % 400 == 0) then 29 else 28)
  else if m == 4 || m == 6 || m == 9 || m == 11 then 30
  else 31

/-- Parse an ISO `YYYY-MM-DD` string the way `new Date(s)` does: the result is
a valid date or (for out-of-range fields) an invalid date, modelled as `none`. -/
def parseIsoDate (s : String) : Option Date :=
  match s.data with
  | [a, b, c, d, '-', e, f, '-', g, h] =>
    if [a, b, c, d, e, f, g, h].all isDigitChar then
      let y := digitVal a * 1000 + digitVal b * 100 + digitVal c * 10 + digitVal d
      let m := digitVal e * 10 + digitVal f
      let dd := digitVal g * 10 + digitVal h
      if 1 ≤ m && m ≤ 12 && 1 ≤ dd && dd ≤ daysInMonth y m then some ⟨y, m, dd⟩
      else none
    else none
  | _ => none

/-- Day count used for `nights = Math.ceil((checkOut - checkIn) / msPerDay)`:
both dates are UTC midnights so the quotient is an exact integer and the
ceiling is the plain difference of Julian day numbers. -/
def Date.toDays (dt : Date) : Int :=
  let a : Int := (14 - (dt.m : Int)) / 12
  let y : Int := (dt.y : Int) + 4800 - a
  let m : Int := (dt.m : Int) + 12 * a - 3
  (dt.d : Int) + (153 * m + 2) / 5 + 365 * y + y / 4 - y / 100 + y / 400 - 32045

def digitsPrefixVal : List Char → Option Nat → Option Nat
  | c :: rest, acc =>
    if isDigitChar c then
      digitsPrefixVal rest (some ((acc.getD 0) * 10 + digitVal c))
    else acc
  | [], acc => acc

def isHexDigitChar (c : Char) : Bool :=
  isDigitChar c || ('a' ≤ c && c ≤ 'f') || ('A' ≤ c && c ≤ 'F')

def hexVal (c : Char) : Nat :=
  if isDigitChar c then digitVal c
  else if 'a' ≤ c && c ≤ 'f' then c.toNat - 'a'.toNat + 10
  else c.toNat - 'A'.toNat + 10

def hexPrefixVal : List Char → Option Nat → Option Nat
  | c :: rest, acc =>
    if isHexDigitChar c then
      hexPrefixVal rest (some ((acc.getD 0) * 16 + hexVal c))
    else acc
  | [], acc => acc

/-- JS `parseInt(s)` (radix inferred): optional sign, `0x` hex prefix or
leading decimal digits; `NaN` (no digits) is `none`. Leading whitespace has
already been removed by the `.trim()` the source applies. -/
def jsParseInt (s : String) : Option Int :=
  let core : List Char → Option Int := fun cs =>
    match cs with
    | '0' :: 'x' :: r => (hexPrefixVal r none).map Int.ofNat
    | '0' :: 'X' :: r => (hexPrefixVal r none).map Int.ofNat
    | _ => (digitsPrefixVal cs none).map Int.ofNat
  match s.data with
  | '-' :: r => (core r).map Int.neg
  | '+' :: r => core r
  | cs => core cs

/-- Index of the first occurrence of `pat` in `hay` (both as char lists). -/
def findSubIdx (hay pat : List Char) : Option Nat :=
  if pat.isPrefixOf hay then some 0
  else match hay with
    | [] => none
    | _ :: rest => (findSubIdx rest pat).map (· + 1)

/-- JS `String.prototype.replace` with a string pattern: replace the first
occurrence only. -/
def replaceFirst (s pat repl : String) : String :=
  match findSubIdx s.data pat.data with
  | none => s
  | some i =>
    String.mk (s.data.take i ++ repl.data ++ s.data.drop (i + pat.data.length))

/-- `split` on a single-character separator, JS semantics (an empty string
yields one empty segment). -/
def splitOnChar (sep : Char) : List Char → List (List Char)
  | [] => [[]]
  | c :: rest =>
    let r := splitOnChar sep rest
    if c == sep then [] :: r
    else
      match r with
      | seg :: segs => (c :: seg) :: segs
      | [] => [[c]]

/-- JS `s.split(sep)` for a one-character separator. -/
def jsSplit (s : String) (sep : Char) : List String :=
  (splitOnChar sep s.data).map String.mk

/-- JS whitespace (the `\s` class of the trim/regex operations). -/
def jsWsChar (c : Char) : Bool :=
  c == ' ' || c == '\t' || c == '\n' || c == '\r' || c == '\x0b' || c == '\x0c' ||
    c == Char.ofNat 0xa0 || c == Char.ofNat 0x1680 ||
    (Char.ofNat 0x2000 ≤ c && c ≤ Char.ofNat 0x200a) ||
    c == Char.ofNat 0x2028 || c == Char.ofNat 0x2029 || c == Char.ofNat 0x202f ||
    c == Char.ofNat 0x205f || c == Char.ofNat 0x3000 || c == Char.ofNat 0xfeff

/-- JS `s.trim()`. -/
def jsTrim (s : String) : String :=
  String.mk (((s.data.dropWhile jsWsChar).reverse.dropWhile jsWsChar).reverse)

/-- JS `s.toLowerCase()` (ASCII range, which covers the event data). -/
def jsToLower (s : String) : String :=
  String.mk (s.data.map Char.toLower)

/-- JS `s.startsWith(pat)`. -/
def strStartsWith (s pat : String) : Bool :=
  pat.data.isPrefixOf s.data

/-- JS `s.substring(0, n)`. -/
def strTake (s : String) (n : Nat) : String :=
  String.mk (s.data.take n)

/-! ## JSON values and `JSON.parse` -/

/-- The JS values `JSON.parse` can produce.  Numbers are exact rationals
(the idealised semantics used throughout this development). -/
inductive Json where
  | null : Json
  | bool (b : Bool) : Json
  | num (q : ℚ) : Json
  | str (s : String) : Json
  | arr (elems : List Json) : Json
  | obj (fields : List (String × Json)) : Json
deriving Repr, BEq

/-- The open-brace character, written via its code point. -/
def lbrace : Char := Char.ofNat 123

/-- The close-brace character, written via its code point. -/
def rbrace : Char := Char.ofNat 125

def jsonWsChar (c : Char) : Bool := c == ' ' || c == '\t' || c == '\n' || c == '\r'

def skipJsonWs : List Char → List Char
  | c :: rest => if jsonWsChar c then skipJsonWs rest else c :: rest
  | [] => []

/-- Body of a JSON string literal, after the opening quote.  Control
characters are refused; escapes follow ECMA-404, with `\uXXXX` surrogate
pairs combined. -/
def parseJStringAux : Nat → List Char → List Char → Option (String × List Char)
  | 0, _, _ => none
  | _ + 1, acc, '"' :: rest => some (String.mk acc.reverse, rest)
  | fuel + 1, acc, '\\' :: esc =>
    match esc with
    | '"' :: r => parseJStringAux fuel ('"' :: acc) r
    | '\\' :: r => parseJStringAux fuel ('\\' :: acc) r
    | '/' :: r => parseJStringAux fuel ('/' :: acc) r
    | 'b' :: r => parseJStringAux fuel ('\x08' :: acc) r
    | 'f' :: r => parseJStringAux fuel ('\x0c' :: acc) r
    | 'n' :: r => parseJStringAux fuel ('\n' :: acc) r
    | 'r' :: r => parseJStringAux fuel ('\r' :: acc) r
    | 't' :: r => parseJStringAux fuel ('\t' :: acc) r
    | 'u' :: h1 :: h2 :: h3 :: h4 :: r =>
      if [h1, h2, h3, h4].all isHexDigitChar then
        let n := ((hexVal h1 * 16 + hexVal h2) * 16 + hexVal h3) * 16 + hexVal h4
        if 0xD800 ≤ n && n ≤ 0xDBFF then
          match r with
          | '\\' :: 'u' :: k1 :: k2 :: k3 :: k4 :: r2 =>
            if [k1, k2, k3, k4].all isHexDigitChar then
              let lo := ((hexVal k1 * 16 + hexVal k2) * 16 + hexVal k3) * 16 + hexVal k4
              if 0xDC00 ≤ lo && lo ≤ 0xDFFF then
                parseJStringAux fuel
                  (Char.ofNat (0x10000 + (n - 0xD800) * 0x400 + (lo - 0xDC00)) :: acc) r2
              else parseJStringAux fuel (Char.ofNat n :: acc) r
            else parseJStringAux fuel (Char.ofNat n :: acc) r
          | _ => parseJStringAux fuel (Char.ofNat n :: acc) r
        else parseJStringAux fuel (Char.ofNat n :: acc) r
      else none
    | _ => none
  | fuel + 1, acc, c :: rest =>
    if c.toNat < 0x20 then none else parseJStringAux fuel (c :: acc) rest
  | _, _, [] => none

def spanDigits : List Char → List Char × List Char
  | c :: rest =>
    if isDigitChar c then
      let (ds, r) := spanDigits rest
      (c :: ds, r)
    else ([], c :: rest)
  | [] => ([], [])

def digitsToNat (ds : List Char) : Nat :=
  ds.foldl (fun acc c => acc * 10 + digitVal c) 0

/-- Exact value of a JSON number from its parts:
`sign * (ip + frac/10^fracLen) * 10^e`, assembled with integer arithmetic
and a single `mkRat`. -/
def ratFromParts (neg : Bool) (ip : Nat) (fracDigits : List Char) (e : Int) : ℚ :=
  let mant : Nat := ip * 10 ^ fracDigits.length + digitsToNat fracDigits
  let sign : Int := if neg then -1 else 1
  let exp : Int := e - fracDigits.length
  if 0 ≤ exp then mkRat (sign * mant * ((10 ^ exp.toNat : Nat) : Int)) 1
  else mkRat (sign * mant) (10 ^ (-exp).toNat)

/-- JSON number grammar: `-? int frac? exp?` with `int = 0 | [1-9][0-9]*`.
The value is exact (no float rounding). -/
def parseJNumber (cs : List Char) : Option (ℚ × List Char) :=
  let (neg, cs1) :=
    match cs with
    | '-' :: r => (true, r)
    | _ => (false, cs)
  let intPart : Option (Nat × List Char) :=
    match cs1 with
    | '0' :: r => some (0, r)
    | c :: _ =>
      if isDigitChar c then
        let (ds, r) := spanDigits cs1
        some (digitsToNat ds, r)
      else none
    | [] => none
  match intPart with
  | none => none
  | some (ip, r1) =>
    let fracPart : Option (List Char × List Char) :=
      match r1 with
      | '.' :: fr =>
        (match fr with
         | c :: _ => if isDigitChar c then some (spanDigits fr) else none
         | [] => none)
      | _ => some ([], r1)
    match fracPart with
    | none => none
    | some (fracDigits, r2) =>
    let expPart : Option (Int × List Char) :=
      match r2 with
      | 'e' :: er | 'E' :: er =>
        let (esign, er1) :=
          match er with
          | '+' :: t => ((1 : Int), t)
          | '-' :: t => ((-1 : Int), t)
          | _ => ((1 : Int), er)
        (match er1 with
         | c :: _ =>
           if isDigitChar c then
             let (ds, r3) := spanDigits er1
             some (esign * (digitsToNat ds : Int), r3)
           else none
         | [] => none)
      | _ => some (0, r2)
    match expPart with
    | none => none
    | some (e, r3) => some (ratFromParts neg ip fracDigits e, r3)

mutual

/-- One JSON value, whitespace already skipped.  `fuel` bounds recursion
depth; `jsonParse` supplies enough for any input. -/
def parseJValue : Nat → List Char → Option (Json × List Char)
  | 0, _ => none
  | _ + 1, [] => none
  | fuel + 1, c :: rest =>
    if c == '"' then
      (parseJStringAux (fuel + 1) [] rest).map (fun p => (Json.str p.1, p.2))
    else if c == lbrace then
      match skipJsonWs rest with
      | c2 :: r2 => if c2 == rbrace then some (Json.obj [], r2)
                    else parseJObjItems fuel (c2 :: r2) []
      | [] => none
    else if c == '[' then
      match skipJsonWs rest with
      | c2 :: r2 => if c2 == ']' then some (Json.arr [], r2)
                    else parseJArrItems fuel (c2 :: r2) []
      | [] => none
    else if c == 't' then
      match rest with
      | 'r' :: 'u' :: 'e' :: r => some (Json.bool true, r)
      | _ => none
    else if c == 'f' then
      match rest with
      | 'a' :: 'l' :: 's' :: 'e' :: r => some (Json.bool false, r)
      | _ => none
    else if c == 'n' then
      match rest with
      | 'u' :: 'l' :: 'l' :: r => some (Json.null, r)
      | _ => none
    else if c == '-' || isDigitChar c then
      (parseJNumber (c :: rest)).map (fun p => (Json.num p.1, p.2))
    else none

def parseJArrItems : Nat → List Char → List Json → Option (Json × List Char)
  | 0, _, _ => none
  | fuel + 1, cs, acc =>
    match parseJValue fuel cs with
    | none => none
    | some (v, r) =>
      match skipJsonWs r with
      | ',' :: r2 => parseJArrItems fuel (skipJsonWs r2) (v :: acc)
      | c :: r2 => if c == ']' then some (Json.arr (v :: acc).reverse, r2) else none
      | [] => none

def parseJObjItems : Nat → List Char → List (String × Json) → Option (Json × List Char)
  | 0, _, _ => none
  | fuel + 1, cs, acc =>
    match cs with
    | '"' :: r =>
      match parseJStringAux (fuel + 1) [] r with
      | none => none
      | some (k, r1) =>
        match skipJsonWs r1 with
        | ':' :: r2 =>
          match parseJValue fuel (skipJsonWs r2) with
          | none => none
          | some (v, r3) =>
            match skipJsonWs r3 with
            | ',' :: r4 =>
              (match skipJsonWs r4 with
               | c :: r5 => if c == '"' then parseJObjItems fuel (c :: r5) ((k, v) :: acc)
                            else none
               | [] => none)
            | c :: r4 =>
              if c == rbrace then some (Json.obj ((k, v) :: acc).reverse, r4) else none
            | [] => none
        | _ => none
    | _ => none

end

/-- `JSON.parse`: one complete value, optionally surrounded by whitespace. -/
def jsonParse (s : String) : Option Json :=
  match parseJValue (2 * s.data.length + 4) (skipJsonWs s.data) with
  | some (j, rest) => if (skipJsonWs rest).isEmpty then some j else none
  | none => none

/-- Property lookup on a JS object literal: with duplicate keys the last
occurrence wins (as in `JSON.parse` and object spread). -/
def lookupLast (fs : List (String × Json)) (k : String) : Option Json :=
  fs.foldl (fun acc kv => if kv.1 == k then some kv.2 else acc) none

/-- `x.k` on a parsed value: `none` models `undefined`. -/
def Json.getField (j : Json) (k : String) : Option Json :=
  match j with
  | .obj fs => lookupLast fs k
  | _ => none

/-- JS truthiness of a parsed value. -/
def Json.truthy : Json → Bool
  | .null => false
  | .bool b => b
  | .num q => !(q == 0)
  | .str s => !(s == "")
  | .arr _ => true
  | .obj _ => true

def Json.isObj : Json → Bool
  | .obj _ => true
  | _ => false

/-- Object spread `\x7b...base, extras\x7d`: later keys override earlier
ones (`lookupLast`).  In this pipeline `base` is always an object. -/
def jsonSpread (base : Json) (extras : List (String × Json)) : Json :=
  match base with
  | .obj fs => .obj (fs ++ extras)
  | _ => .obj extras

/-! ## Recommendation requester (`getPriceInsightFromGemini`) -/

/-- The `PriceInsightPayload` the orchestrator builds for the AI call;
fields mirror the TypeScript interface. -/
structure Payload where
  hotel_name : String
  hotel_city : String
  rating : ℚ
  reviews : ℚ
  min_price : ℚ
  avg_price : ℚ
  max_price : ℚ
  price_per_night : ℚ
  check_in : Date
  check_out : Date
  nights : ℤ
  guests : ℕ
  is_peak_month : Bool
  peak_months : String
  event_active : Bool
  event_name : Option String
  budget_min : Option ℚ
  budget_max : Option ℚ
  calc_min : ℚ
  calc_max : ℚ
deriving Repr

/-- JS template interpolation of a possibly-null string. -/
def jsShow : Option String → String
  | some s => s
  | none => "null"

/-- Fairness label of the deterministic fallback: midpoint of the calculated
range against the 0.8/1.3 city-average thresholds. -/
def fallbackFairness (p : Payload) : String :=
  let avgRecommended := (p.calc_min + p.calc_max) / 2
  let cityAvg := p.avg_price
  if avgRecommended < cityAvg * 0.8 then "cheap"
  else if avgRecommended > cityAvg * 1.3 then "expensive"
  else "fair"

/-- Fallback explanation, concatenated from the fixed template fragments. -/
def fallbackExplanation (p : Payload) : String :=
  "Price recommendation based on demand analysis. " ++
    (if p.is_peak_month then "Peak season pricing applies. " else "") ++
    (if p.event_active then jsShow p.event_name ++ " is happening during your dates. "
     else "") ++
    "This is a calculated estimate."

/-- The deterministic fallback recommendation object. -/
def fallbackJson (p : Payload) : Json :=
  .obj [("recommended_min_price", .num (jsRound p.calc_min)),
        ("recommended_max_price", .num (jsRound p.calc_max)),
        ("fairness_label", .str (fallbackFairness p)),
        ("confidence_score", .num 0.6),
        ("explanation", .str (fallbackExplanation p))]

/-- The response-structure validation of `getPriceInsightFromGemini`
(lines checking field types, the label enumeration, the confidence range
and a truthy explanation).  Note: it does not compare
`recommended_min_price` with `recommended_max_price`. -/
def validateOk (j : Json) : Bool :=
  (match j.getField "recommended_min_price" with
   | some (.num _) => true
   | _ => false) &&
  (match j.getField "recommended_max_price" with
   | some (.num _) => true
   | _ => false) &&
  (match j.getField "fairness_label" with
   | some (.str s) => s == "cheap" || s == "fair" || s == "expensive"
   | _ => false) &&
  (match j.getField "confidence_score" with
   | some (.num c) => decide (0 ≤ c) && decide (c ≤ 1)
   | _ => false) &&
  (match j.getField "explanation" with
   | some e => e.truthy
   | none => false)

/-- The `content.match(/\x7b[\s\S]*\x7d/)` extraction: the (greedy, leftmost)
match runs from the first open brace to the last close brace of the text. -/
def extractBraceBlock (s : String) : Option String :=
  let tail := s.data.dropWhile (fun c => !(c == lbrace))
  let trimmed := (tail.reverse.dropWhile (fun c => !(c == rbrace))).reverse
  if 2 ≤ trimmed.length then some (String.mk trimmed) else none

/-- Parse the AI text: direct `JSON.parse` first, then the brace-block
extraction as fallback. -/
def tryParseContent (content : String) : Option Json :=
  match jsonParse content with
  | some j => some j
  | none =>
    match extractBraceBlock content with
    | some blockStr => jsonParse blockStr
    | none => none

/-- The parse/validate/fallback body of `getPriceInsightFromGemini`
(its outer `try`/`catch`): `text` is
`data.candidates?.[0]?.content?.parts?.[0]?.text` (`none` = missing). -/
def getPriceInsightContent (p : Payload) (text : Option String) : Json :=
  match text with
  | none => fallbackJson p
  | some content =>
    match tryParseContent content with
    | none => fallbackJson p
    | some j => if validateOk j then j else fallbackJson p

/-- Outcome of the single `fetch` to the Gemini endpoint.
`networkError` covers a rejected fetch and a malformed response envelope
(both raised before the parsing `try`); `httpError` is a non-2xx status. -/
inductive AiOutcome where
  | networkError (msg : String)
  | httpError (status : Nat) (bodyText : String)
  | content (text : Option String)
deriving Repr

/-- `getPriceInsightFromGemini`: the whole helper.  A thrown `Error` is the
`Except.error` case, carrying the message the orchestrator's `catch`
receives.  The AI endpoint is invoked exactly once (no retry): the single
`AiOutcome` argument is that one invocation's result. -/
def getPriceInsightFromGemini (p : Payload) (oc : AiOutcome) : Except String Json :=
  match oc with
  | .networkError msg => .error msg
  | .httpError status bodyText =>
    if status == 429 then
      .error "RATE_LIMIT: Our AI service is currently busy. Please wait a minute and try again."
    else
      .error ("Gemini API returned " ++ toString status ++ ": " ++ strTake bodyText 200)
  | .content text => .ok (getPriceInsightContent p text)

/-! ## Event regex

Both the edge function and `demand.ts` match each event entry against
`/(.+?)\s*\((\d\x7b4\x7d-\d\x7b2\x7d-\d\x7b2\x7d)–(\d\x7b4\x7d-\d\x7b2\x7d-\d\x7b2\x7d)\)/`.
The matcher below encodes the backtracking search directly: start positions
left to right, the lazy name growing one character at a time, `\s*` between
name and the parenthesised dates. -/

/-- JS regex `.` (without the `s` flag): any char except line terminators. -/
def jsDotChar (c : Char) : Bool :=
  !(c == '\n' || c == '\r' || c == Char.ofNat 0x2028 || c == Char.ofNat 0x2029)

/-- `\d\x7b4\x7d-\d\x7b2\x7d-\d\x7b2\x7d` as a prefix; returns the date text
and the remaining input. -/
def matchDatePat : List Char → Option (String × List Char)
  | a :: b :: c :: d :: '-' :: e :: f :: '-' :: g :: h :: rest =>
    if [a, b, c, d, e, f, g, h].all isDigitChar then
      some (String.mk [a, b, c, d, '-', e, f, '-', g, h], rest)
    else none
  | _ => none

/-- `\((date)–(date)\)` as a prefix. -/
def matchParenDates (cs : List Char) : Option (String × String) :=
  match cs with
  | c :: rest =>
    if c == '(' then
      match matchDatePat rest with
      | some (d1, r1) =>
        (match r1 with
         | '–' :: r2 =>
           (match matchDatePat r2 with
            | some (d2, r3) =>
              (match r3 with
               | c2 :: _ => if c2 == ')' then some (d1, d2) else none
               | [] => none)
            | none => none)
         | _ => none)
      | none => none
    else none
  | [] => none

/-- `\s*\((date)–(date)\)`: only one split of the whitespace run can put the
open paren first, so trying each suffix in turn is the backtracking search. -/
def matchWsParen : List Char → Option (String × String)
  | [] => none
  | c :: rest =>
    match matchParenDates (c :: rest) with
    | some r => some r
    | none => if jsWsChar c then matchWsParen rest else none

/-- Grow the lazy `(.+?)` name one character at a time, preferring the
shortest name whose remainder matches `\s*\(...\)`. -/
def matchNameLoop : List Char → List Char → Option (String × String × String)
  | nameRev, cs =>
    match matchWsParen cs with
    | some (d1, d2) => some (String.mk nameRev.reverse, d1, d2)
    | none =>
      match cs with
      | c :: rest => if jsDotChar c then matchNameLoop (c :: nameRev) rest else none
      | [] => none

/-- Attempt a match starting at the head of `cs` (name needs ≥ 1 char). -/
def matchEventAt : List Char → Option (String × String × String)
  | c :: rest => if jsDotChar c then matchNameLoop [c] rest else none
  | [] => none

/-- Leftmost match of the event pattern: captured name and the two date
strings, or `none` when the entry is malformed. -/
def matchEventRegex : List Char → Option (String × String × String)
  | [] => none
  | c :: rest =>
    match matchEventAt (c :: rest) with
    | some r => some r
    | none => matchEventRegex rest

/-! ## `src/lib/utils.ts` date helpers -/

/-- `getMonthNumber`: `getMonth() + 1` of the (UTC) check-in date. -/
def getMonthNumber (d : Date) : Nat := d.m

/-- `isDateInRange(date, start, end)`: `d >= s && d <= e` on `new Date`
values; any invalid date makes both comparisons false. -/
def isDateInRange (d : Date) (startS endS : String) : Bool :=
  match parseIsoDate startS, parseIsoDate endS with
  | some s, some e => Date.le s d && Date.le d e
  | _, _ => false

/-- `new Date(a) <= new Date(b)` where `b` comes from an event string. -/
def dateLeStr (a : Date) (bS : String) : Bool :=
  match parseIsoDate bS with
  | some b => Date.le a b
  | none => false

/-- `new Date(a) >= new Date(b)` analogously. -/
def dateGeStr (a : Date) (bS : String) : Bool :=
  match parseIsoDate bS with
  | some b => Date.le b a
  | none => false

/-! ## `src/lib/demand.ts`: the weighted-score demand model -/

inductive Impact where
  | low
  | medium
  | high
  | very_high
deriving DecidableEq, Repr

/-- One parsed event of `demand.ts`. -/
structure EventInfo where
  name : String
  start : String
  ending : String
  impact : Impact
deriving DecidableEq, Repr

/-- `name.toLowerCase().includes(kw)`. -/
def nameIncludes (name kw : String) : Bool :=
  (findSubIdx (jsToLower name).data kw.data).isSome

/-- `getEventImpact`: severity classification by keyword matching. -/
def getEventImpact (eventName : String) : Impact :=
  if nameIncludes eventName "kumbh" || nameIncludes eventName "diwali" ||
      nameIncludes eventName "new year" then .very_high
  else if nameIncludes eventName "wedding" || nameIncludes eventName "durga puja" ||
      nameIncludes eventName "navratri" then .high
  else if nameIncludes eventName "festival" || nameIncludes eventName "jayanti" ||
      nameIncludes eventName "puja" then .medium
  else .low

/-- `parseEvents`: split on `;`, trim, match each entry against the event
pattern, silently skipping entries that do not match. -/
def parseEvents (eventsStr : Option String) : List EventInfo :=
  match eventsStr with
  | none => []
  | some s =>
    if s == "" then []
    else
      ((jsSplit s ';').map jsTrim).filterMap
        (fun eventStr =>
          (matchEventRegex eventStr.data).map
            (fun r =>
              { name := jsTrim r.1, start := r.2.1, ending := r.2.2,
                impact := getEventImpact (jsTrim r.1) }))

/-- Per-event severity weight (the `impactScore` record of the source). -/
def impactScore : Impact → ℚ
  | .low => 0.1
  | .medium => 0.2
  | .high => 0.3
  | .very_high => 0.4

/-- The `city_demand` row (`peak_months` and `events` are nullable text). -/
structure CityDemandRow where
  peak_months : Option String
  events : Option String
deriving Repr

/-- `peak_months.split(',').map(m => parseInt(m.trim()))`, `none` entries
being `NaN`. -/
def parsePeakMonths : Option String → List (Option Int)
  | none => []
  | some s => ((jsSplit s ',').map (fun t => jsParseInt (jsTrim t)))

/-- `peakMonths.includes(checkInMonth)` — `NaN` entries never match. -/
def peakIncludes (l : List (Option Int)) (m : Int) : Bool := l.contains (some m)

/-- Result of `calculateDemandContext`. -/
structure DemandContext where
  is_peak_month : Bool
  peak_months : Option String
  events : List EventInfo
  demand_score : ℚ
deriving Repr

/-- Does an event overlap the stay (check-in inside it, check-out inside it,
or the event contained in the stay)? -/
def eventOverlaps (checkIn checkOut : Date) (ev : EventInfo) : Bool :=
  isDateInRange checkIn ev.start ev.ending ||
  isDateInRange checkOut ev.start ev.ending ||
  (dateLeStr checkIn ev.start && dateGeStr checkOut ev.ending)

/-- `calculateDemandContext` from `src/lib/demand.ts`. -/
def calculateDemandContext (cityDemand : Option CityDemandRow)
    (checkIn checkOut : Date) : DemandContext :=
  let checkInMonth := getMonthNumber checkIn
  let peakMonths := parsePeakMonths (cityDemand.bind (·.peak_months))
  let isPeakMonth := peakIncludes peakMonths (checkInMonth : Int)
  let allEvents := parseEvents (cityDemand.bind (·.events))
  let overlappingEvents := allEvents.filter (eventOverlaps checkIn checkOut)
  let demandScore0 : ℚ := if isPeakMonth then 0.3 else 0
  let demandScore1 :=
    overlappingEvents.foldl (fun acc ev => acc + impactScore ev.impact) demandScore0
  let demandScore := min demandScore1 1
  { is_peak_month := isPeakMonth
    peak_months := cityDemand.bind (·.peak_months)
    events := overlappingEvents
    demand_score := demandScore }

/-- `calculatePriceRange`: linear multiplier `1 + demandScore * 0.5`,
rounded to whole currency units. -/
def calculatePriceRange (baseMin baseMax demandScore : ℚ) : ℤ × ℤ :=
  let multiplier := 1 + demandScore * 0.5
  (jsRound (baseMin * multiplier), jsRound (baseMax * multiplier))

/-! ## The `serve` orchestrator of the edge function -/

/-- The request body `\x7bhotel_id, city, check_in, check_out, guests,
budget_min, budget_max\x7d`.  The stay dates are the (valid ISO) dates the
strings denote; they also serve as the cache key. -/
structure StayRequest where
  hotel_id : Nat
  city : String
  check_in : Date
  check_out : Date
  guests : Nat
  budget_min : Option ℚ
  budget_max : Option ℚ
deriving DecidableEq, Repr

/-- The `hotels_india` row fields the pipeline reads. -/
structure Hotel where
  hotel_name : String
  city : String
  rating : Option ℚ
  number_of_reviews : Option ℚ
  price_per_night : ℚ
deriving Repr

/-- The `city_price_stats` row. -/
structure CityStats where
  min_price : ℚ
  avg_price : ℚ
  max_price : ℚ
deriving Repr

/-- One `price_predictions` row.  `created_at` is in hours (the cache window
arithmetic subtracts 24 hours from "now"). -/
structure PredictionRecord where
  hotel_id : Nat
  city : String
  check_in : Date
  check_out : Date
  nights : ℤ
  calculated_min : ℤ
  calculated_max : ℤ
  gemini_response : Json
  created_at : ℚ
deriving Repr

/-- JS `x || d` for an optionally-present number (`0`/`NaN`/missing are
falsy).  In this pipeline the field, when present, is always a number. -/
def jsNumOr (x : Option ℚ) (d : ℚ) : ℚ :=
  match x with
  | some q => if q == 0 then d else q
  | none => d

/-- `gemini_response?.demand_multiplier || 1.0` on a stored JSON value. -/
def jsNumFieldOr (x : Option Json) (d : ℚ) : ℚ :=
  match x with
  | some (.num q) => if q == 0 then d else q
  | _ => d

/-- `gemini_response?.flag || false` on a stored JSON value. -/
def jsBoolFieldOr (x : Option Json) : Bool :=
  match x with
  | some j => j.truthy
  | none => false

/-- `gemini_response?.event_name || null` on a stored JSON value (the
stored field is a string or null). -/
def jsStrFieldOrNull (x : Option Json) : Option String :=
  match x with
  | some (.str s) => if s == "" then none else some s
  | _ => none

/-- The `for (const eventStr of eventParts)` loop: regex-match each entry,
activate on the first whose `[start, end]` contains the check-in date
(inclusive), `break`-ing at that event. -/
def scanEventParts (checkIn : Date) : List String → Bool × Option String
  | [] => (false, none)
  | p :: rest =>
    match matchEventRegex p.data with
    | some (name, startS, endS) =>
      if dateGeStr checkIn startS && dateLeStr checkIn endS then
        (true, some (jsTrim name))
      else scanEventParts checkIn rest
    | none => scanEventParts checkIn rest

/-- `cityDemand?.events` split on `;` when truthy, else no entries. -/
def eventPartsOf (cityDemand : Option CityDemandRow) : List String :=
  match cityDemand with
  | some row =>
    (match row.events with
     | some s => if s == "" then [] else jsSplit s ';'
     | none => [])
  | none => []

/-- The demand-adjustment formula: `1.0`, `+= 0.20` on peak month,
`+= 0.30` on an active event. -/
def binaryMultiplier (isPeakMonth eventActive : Bool) : ℚ :=
  let m : ℚ := 1.0
  let m := if isPeakMonth then m + 0.20 else m
  let m := if eventActive then m + 0.30 else m
  m

/-- Everything the fresh-computation path derives before the AI call
(lines between the cache miss and the Gemini invocation). -/
structure FreshData where
  nights : ℤ
  isPeakMonth : Bool
  eventActive : Bool
  eventName : Option String
  demandMultiplier : ℚ
  baseCityMin : ℚ
  baseCityAvg : ℚ
  baseCityMax : ℚ
  adjustedMin : ℤ
  adjustedAvg : ℤ
  adjustedMax : ℤ
  payload : Payload
deriving Repr

def freshCompute (req : StayRequest) (hotel : Hotel) (cityStats : Option CityStats)
    (cityDemand : Option CityDemandRow) : FreshData :=
  let nights := req.check_out.toDays - req.check_in.toDays
  let checkInMonth := getMonthNumber req.check_in
  let peakMonths := parsePeakMonths (cityDemand.bind (·.peak_months))
  let isPeakMonth := peakIncludes peakMonths (checkInMonth : Int)
  let scanned := scanEventParts req.check_in (eventPartsOf cityDemand)
  let eventActive := scanned.1
  let eventName := scanned.2
  let demandMultiplier := binaryMultiplier isPeakMonth eventActive
  let baseCityMin := jsNumOr (cityStats.map (·.min_price)) (hotel.price_per_night * 0.8)
  let baseCityAvg := jsNumOr (cityStats.map (·.avg_price)) hotel.price_per_night
  let baseCityMax := jsNumOr (cityStats.map (·.max_price)) (hotel.price_per_night * 1.5)
  let adjustedMin := jsRound (baseCityMin * demandMultiplier)
  let adjustedAvg := jsRound (baseCityAvg * demandMultiplier)
  let adjustedMax := jsRound (baseCityMax * demandMultiplier)
  { nights := nights
    isPeakMonth := isPeakMonth
    eventActive := eventActive
    eventName := eventName
    demandMultiplier := demandMultiplier
    baseCityMin := baseCityMin
    baseCityAvg := baseCityAvg
    baseCityMax := baseCityMax
    adjustedMin := adjustedMin
    adjustedAvg := adjustedAvg
    adjustedMax := adjustedMax
    payload :=
      { hotel_name := hotel.hotel_name
        hotel_city := hotel.city
        rating := jsNumOr hotel.rating 0
        reviews := jsNumOr hotel.number_of_reviews 0
        min_price := baseCityMin
        avg_price := baseCityAvg
        max_price := baseCityMax
        price_per_night := hotel.price_per_night
        check_in := req.check_in
        check_out := req.check_out
        nights := nights
        guests := req.guests
        is_peak_month := isPeakMonth
        peak_months := (match cityDemand.bind (·.peak_months) with
                        | some s => s
                        | none => "")
        event_active := eventActive
        event_name := eventName
        budget_min := req.budget_min
        budget_max := req.budget_max
        calc_min := (adjustedMin : ℚ)
        calc_max := (adjustedMax : ℚ) } }

/-- The JSON orchestrator response (both the cached and the fresh shape). -/
structure PriceResponse where
  cached : Bool
  base_min : ℚ
  base_avg : ℚ
  base_max : ℚ
  adj_min : ℚ
  adj_avg : ℚ
  adj_max : ℚ
  multiplier : ℚ
  ai_recommendation : Json
  is_peak_month : Bool
  event_active : Bool
  event_name : Option String
  demand_multiplier : ℚ
deriving Repr

/-- JSON stored in `gemini_response`: the AI recommendation spread together
with the demand-context fields. -/
def storedGemini (fd : FreshData) (aiRec : Json) : Json :=
  jsonSpread aiRec
    [("is_peak_month", .bool fd.isPeakMonth),
     ("event_active", .bool fd.eventActive),
     ("event_name", match fd.eventName with
                    | some s => .str s
                    | none => .null),
     ("demand_multiplier", .num fd.demandMultiplier)]

/-- The row the fresh path inserts into `price_predictions`. -/
def freshRecord (req : StayRequest) (fd : FreshData) (aiRec : Json) (now : ℚ) :
    PredictionRecord :=
  { hotel_id := req.hotel_id
    city := req.city
    check_in := req.check_in
    check_out := req.check_out
    nights := fd.nights
    calculated_min := fd.adjustedMin
    calculated_max := fd.adjustedMax
    gemini_response := storedGemini fd aiRec
    created_at := now }

/-- Response assembled on the fresh path ("all three price layers"). -/
def freshResponse (fd : FreshData) (aiRec : Json) : PriceResponse :=
  { cached := false
    base_min := fd.baseCityMin
    base_avg := fd.baseCityAvg
    base_max := fd.baseCityMax
    adj_min := (fd.adjustedMin : ℚ)
    adj_avg := (fd.adjustedAvg : ℚ)
    adj_max := (fd.adjustedMax : ℚ)
    multiplier := fd.demandMultiplier
    ai_recommendation := aiRec
    is_peak_month := fd.isPeakMonth
    event_active := fd.eventActive
    event_name := fd.eventName
    demand_multiplier := fd.demandMultiplier }

/-- Response assembled from a cached `price_predictions` row. -/
def cachedResponse (r : PredictionRecord) : PriceResponse :=
  let demandMultiplier := jsNumFieldOr (r.gemini_response.getField "demand_multiplier") 1.0
  { cached := true
    base_min := (jsRound ((r.calculated_min : ℚ) / demandMultiplier) : ℚ)
    base_avg := (jsRound ((((r.calculated_min : ℚ) + (r.calculated_max : ℚ)) / 2) /
      demandMultiplier) : ℚ)
    base_max := (jsRound ((r.calculated_max : ℚ) / demandMultiplier) : ℚ)
    adj_min := (r.calculated_min : ℚ)
    adj_avg := (jsRound (((r.calculated_min : ℚ) + (r.calculated_max : ℚ)) / 2) : ℚ)
    adj_max := (r.calculated_max : ℚ)
    multiplier := demandMultiplier
    ai_recommendation := r.gemini_response
    is_peak_month := jsBoolFieldOr (r.gemini_response.getField "is_peak_month")
    event_active := jsBoolFieldOr (r.gemini_response.getField "event_active")
    event_name := jsStrFieldOrNull (r.gemini_response.getField "event_name")
    demand_multiplier := demandMultiplier }

/-- Does a stored row match the request key `(hotel_id, city, check_in,
check_out)`? -/
def matchesKey (r : PredictionRecord) (req : StayRequest) : Bool :=
  r.hotel_id == req.hotel_id && r.city == req.city &&
    r.check_in == req.check_in && r.check_out == req.check_out

/-- The rows the cache query keeps: key match and
`created_at >= now - 24h`. -/
def windowMatches (db : List PredictionRecord) (req : StayRequest) (cutoff : ℚ) :
    List PredictionRecord :=
  db.filter (fun r => matchesKey r req && decide (cutoff ≤ r.created_at))

/-- `order('created_at', descending).limit(1).maybeSingle()`: the matching
row with the greatest `created_at` (the first such row on ties). -/
def cacheLookup (db : List PredictionRecord) (req : StayRequest) (cutoff : ℚ) :
    Option PredictionRecord :=
  (windowMatches db req cutoff).foldl
    (fun acc r =>
      match acc with
      | none => some r
      | some a => if a.created_at < r.created_at then some r else some a)
    none

/-- The body of `serve`'s `try` block: cache lookup, short-circuit on hit;
otherwise fresh computation, one AI call, one insert.  `hasKey` is whether
`GEMINI_API_KEY` is configured; `now` is the request time in hours. -/
def handleRequest (db : List PredictionRecord) (req : StayRequest) (hotel : Hotel)
    (cityStats : Option CityStats) (cityDemand : Option CityDemandRow)
    (hasKey : Bool) (oc : AiOutcome) (now : ℚ) :
    Except String (PriceResponse × List PredictionRecord) :=
  match cacheLookup db req (now - 24) with
  | some cachedPrediction => .ok (cachedResponse cachedPrediction, db)
  | none =>
    let fd := freshCompute req hotel cityStats cityDemand
    if hasKey then
      match getPriceInsightFromGemini fd.payload oc with
      | .error msg => .error msg
      | .ok aiRec => .ok (freshResponse fd aiRec, db ++ [freshRecord req fd aiRec now])
    else .error "Gemini API key not configured"

/-- The error body `\x7berror, code, timestamp\x7d`. -/
structure ErrorBody where
  error : String
  code : Nat
  timestamp : String
deriving DecidableEq, Repr

/-- An HTTP response of the edge function: 200 with the price payload, or
an error status with the error body. -/
inductive ServeResponse where
  | success (body : PriceResponse)
  | failure (status : Nat) (body : ErrorBody)
deriving Repr

/-- The `catch` block of `serve`: friendly message and 429 for rate-limit
errors, 500 otherwise. -/
def handleCatch (message nowIso : String) : ServeResponse :=
  let statusCode := if strStartsWith message "RATE_LIMIT:" then 429 else 500
  let errorMessage :=
    if strStartsWith message "RATE_LIMIT:" then replaceFirst message "RATE_LIMIT: " ""
    else message
  .failure statusCode ⟨errorMessage, statusCode, nowIso⟩

/-- The full request handler: the `try` body with its `catch`.  `nowIso` is
the timestamp string of the moment the error response is built. -/
def serve (db : List PredictionRecord) (req : StayRequest) (hotel : Hotel)
    (cityStats : Option CityStats) (cityDemand : Option CityDemandRow)
    (hasKey : Bool) (oc : AiOutcome) (now : ℚ) (nowIso : String) :
    ServeResponse × List PredictionRecord :=
  match handleRequest db req hotel cityStats cityDemand hasKey oc now with
  | .ok (resp, db2) => (.success resp, db2)
  | .error msg => (handleCatch msg nowIso, db)

/-! ## Shared lemmas -/

theorem jsRound_mono {a b : ℚ} (h : a ≤ b) : jsRound a ≤ jsRound b :=
  Int.floor_mono (add_le_add_right h _)

theorem binaryMultiplier_ge_one (p e : Bool) : 1 ≤ binaryMultiplier p e := by
  cases p <;> cases e <;> norm_num [binaryMultiplier]

theorem binaryMultiplier_le (p e : Bool) : binaryMultiplier p e ≤ 3 / 2 := by
  cases p <;> cases e <;> norm_num [binaryMultiplier]

theorem binaryMultiplier_closed (p e : Bool) :
    binaryMultiplier p e = 1 + (if p then 0.20 else 0) + (if e then 0.30 else 0) := by
  cases p <;> cases e <;> norm_num [binaryMultiplier]

/-! ## C9: order preservation of the adjusted range -/

/-- C9: for every multiplier `m ≥ 1.0` and every base range with
`base_min ≤ base_avg ≤ base_max`, the adjusted range
`(round(base_min*m), round(base_avg*m), round(base_max*m))` still satisfies
`min ≤ avg ≤ max` after each component is rounded independently; in
particular the orchestrator's `adjustedMin ≤ adjustedAvg ≤ adjustedMax`
whenever its base city prices are ordered. -/
theorem C9_adjusted_range_order :
    (∀ bmin bavg bmax m : ℚ, bmin ≤ bavg → bavg ≤ bmax → 1 ≤ m →
      jsRound (bmin * m) ≤ jsRound (bavg * m) ∧
        jsRound (bavg * m) ≤ jsRound (bmax * m)) ∧
    (∀ (req : StayRequest) (hotel : Hotel) (cityStats : Option CityStats)
        (cityDemand : Option CityDemandRow),
      (freshCompute req hotel cityStats cityDemand).baseCityMin ≤
          (freshCompute req hotel cityStats cityDemand).baseCityAvg →
      (freshCompute req hotel cityStats cityDemand).baseCityAvg ≤
          (freshCompute req hotel cityStats cityDemand).baseCityMax →
      (freshCompute req hotel cityStats cityDemand).adjustedMin ≤
          (freshCompute req hotel cityStats cityDemand).adjustedAvg ∧
        (freshCompute req hotel cityStats cityDemand).adjustedAvg ≤
          (freshCompute req hotel cityStats cityDemand).adjustedMax) := by
  constructor
  · intro bmin bavg bmax m h1 h2 hm
    have hm0 : (0 : ℚ) ≤ m := le_trans zero_le_one hm
    exact ⟨jsRound_mono (mul_le_mul_of_nonneg_right h1 hm0),
      jsRound_mono (mul_le_mul_of_nonneg_right h2 hm0)⟩
  · intro req hotel cityStats cityDemand h1 h2
    have hm := binaryMultiplier_ge_one
      (freshCompute req hotel cityStats cityDemand).isPeakMonth
      (freshCompute req hotel cityStats cityDemand).eventActive
    have hmul :
        (freshCompute req hotel cityStats cityDemand).demandMultiplier =
          binaryMultiplier (freshCompute req hotel cityStats cityDemand).isPeakMonth
            (freshCompute req hotel cityStats cityDemand).eventActive := rfl
    have hm0 : (0 : ℚ) ≤ (freshCompute req hotel cityStats cityDemand).demandMultiplier := by
      rw [hmul]; exact le_trans zero_le_one hm
    exact ⟨jsRound_mono (mul_le_mul_of_nonneg_right h1 hm0),
      jsRound_mono (mul_le_mul_of_nonneg_right h2 hm0)⟩

/-- Witness for C9 at the spec's scenario numbers: base `(4000, 5000, 7500)`
and the maximal multiplier `1.5`. -/
theorem C9_adjusted_range_order_witness :
    jsRound ((4000 : ℚ) * (3 / 2)) ≤ jsRound ((5000 : ℚ) * (3 / 2)) ∧
      jsRound ((5000 : ℚ) * (3 / 2)) ≤ jsRound ((7500 : ℚ) * (3 / 2)) :=
  C9_adjusted_range_order.1 4000 5000 7500 (3 / 2) (by norm_num) (by norm_num)
    (by norm_num)

/-! ## C8: fairness-label boundaries of the deterministic fallback -/

theorem fallbackJson_label (p : Payload) :
    (fallbackJson p).getField "fairness_label" = some (.str (fallbackFairness p)) := rfl

/-- C8: in the deterministic fallback, a midpoint exactly equal to
`0.8 × city average` is labelled `fair` (not `cheap`), and one exactly
equal to `1.3 × city average` is labelled `fair` (not `expensive`): both
outer thresholds are strict at the boundary.  (City averages are
nonnegative prices.) -/
theorem C8_fairness_boundary (p : Payload) (havg : 0 ≤ p.avg_price) :
    ((p.calc_min + p.calc_max) / 2 = p.avg_price * 0.8 →
      (fallbackJson p).getField "fairness_label" = some (.str "fair")) ∧
    ((p.calc_min + p.calc_max) / 2 = p.avg_price * 1.3 →
      (fallbackJson p).getField "fairness_label" = some (.str "fair")) := by
  rw [fallbackJson_label p]
  constructor
  · intro h
    have h1 : ¬((p.calc_min + p.calc_max) / 2 < p.avg_price * 0.8) := by
      rw [h]; exact lt_irrefl _
    have h2 : ¬((p.calc_min + p.calc_max) / 2 > p.avg_price * 1.3) := by
      rw [h]; intro hc; nlinarith
    simp only [fallbackFairness, if_neg h1, if_neg h2]
  · intro h
    have h1 : ¬((p.calc_min + p.calc_max) / 2 < p.avg_price * 0.8) := by
      rw [h]; intro hc; nlinarith
    have h2 : ¬((p.calc_min + p.calc_max) / 2 > p.avg_price * 1.3) := by
      rw [h]; exact lt_irrefl _
    simp only [fallbackFairness, if_neg h1, if_neg h2]

/-- A concrete payload: city average 5000, calculated range [3000, 5000]
(midpoint 4000 = 0.8 × 5000). -/
def payloadLowBoundary : Payload :=
  { hotel_name := "H", hotel_city := "Jaipur", rating := 4,
    reviews := 100, min_price := 2000, avg_price := 5000, max_price := 9000,
    price_per_night := 4500, check_in := ⟨2024, 10, 1⟩, check_out := ⟨2024, 10, 3⟩,
    nights := 2, guests := 2, is_peak_month := false, peak_months := "",
    event_active := false, event_name := none, budget_min := none,
    budget_max := none, calc_min := 3000, calc_max := 5000 }

/-- A concrete payload: city average 5000, calculated range [6000, 7000]
(midpoint 6500 = 1.3 × 5000). -/
def payloadHighBoundary : Payload :=
  { payloadLowBoundary with calc_min := 6000, calc_max := 7000 }

/-- Witness for C8: both boundary midpoints are labelled `fair`. -/
theorem C8_fairness_boundary_witness :
    (fallbackJson payloadLowBoundary).getField "fairness_label" =
        some (.str "fair") ∧
      (fallbackJson payloadHighBoundary).getField "fairness_label" =
        some (.str "fair") :=
  ⟨(C8_fairness_boundary payloadLowBoundary (by norm_num [payloadLowBoundary])).1
      (by norm_num [payloadLowBoundary]),
   (C8_fairness_boundary payloadHighBoundary
        (by norm_num [payloadHighBoundary, payloadLowBoundary])).2
      (by norm_num [payloadHighBoundary, payloadLowBoundary])⟩

/-! ## C4 / C10: the binary-multiplier demand model -/

theorem Date.le_self (a : Date) : Date.le a a = true := by
  cases a; simp [Date.le]

/-- The event loop activates exactly when some parsed entry's inclusive
`[start, end]` interval contains the check-in date. -/
theorem scanEventParts_true_iff (checkIn : Date) (parts : List String) :
    (scanEventParts checkIn parts).1 = true ↔
      ∃ p ∈ parts, ∃ nm d1 d2, matchEventRegex p.data = some (nm, d1, d2) ∧
        (dateGeStr checkIn d1 && dateLeStr checkIn d2) = true := by
  induction parts with
  | nil => simp [scanEventParts]
  | cons p rest ih =>
    simp only [scanEventParts]
    cases hm : matchEventRegex p.data with
    | none =>
      dsimp only
      rw [ih]
      constructor
      · rintro ⟨q, hq, t⟩
        exact ⟨q, List.mem_cons_of_mem p hq, t⟩
      · rintro ⟨q, hq, nm, d1, d2, hqm, hqc⟩
        rcases List.mem_cons.mp hq with h | h
        · subst h; rw [hm] at hqm; exact Option.noConfusion hqm
        · exact ⟨q, h, nm, d1, d2, hqm, hqc⟩
    | some t =>
      obtain ⟨nm, d1, d2⟩ := t
      dsimp only
      by_cases hc : (dateGeStr checkIn d1 && dateLeStr checkIn d2) = true
      · rw [if_pos hc]
        constructor
        · intro _
          exact ⟨p, List.mem_cons_self p rest, nm, d1, d2, hm, hc⟩
        · intro _; rfl
      · rw [if_neg hc]
        rw [ih]
        constructor
        · rintro ⟨q, hq, t⟩
          exact ⟨q, List.mem_cons_of_mem p hq, t⟩
        · rintro ⟨q, hq, nm2, e1, e2, hqm, hqc⟩
          rcases List.mem_cons.mp hq with h | h
          · subst h
            rw [hm] at hqm
            obtain ⟨rfl, rfl, rfl⟩ : nm = nm2 ∧ d1 = e1 ∧ d2 = e2 := by
              simpa using hqm
            exact absurd hqc hc
          · exact ⟨q, h, nm2, e1, e2, hqm, hqc⟩

/-- C4: the demand multiplier is `1.0 + 0.20·[peak month] + 0.30·[some parsed
event's inclusive interval contains the check-in date]`; a check-in equal to
an event's start or end date activates the event, and the multiplier never
exceeds `1.50`. -/
theorem C4_binary_multiplier (req : StayRequest) (hotel : Hotel)
    (cityStats : Option CityStats) (cityDemand : Option CityDemandRow) :
    ((freshCompute req hotel cityStats cityDemand).demandMultiplier =
      1 + (if (freshCompute req hotel cityStats cityDemand).isPeakMonth
           then 0.20 else 0) +
        (if (freshCompute req hotel cityStats cityDemand).eventActive
         then 0.30 else 0)) ∧
    ((freshCompute req hotel cityStats cityDemand).isPeakMonth =
      peakIncludes (parsePeakMonths (cityDemand.bind (·.peak_months)))
        (getMonthNumber req.check_in : Int)) ∧
    ((freshCompute req hotel cityStats cityDemand).eventActive = true ↔
      ∃ p ∈ eventPartsOf cityDemand, ∃ nm d1 d2,
        matchEventRegex p.data = some (nm, d1, d2) ∧
          (dateGeStr req.check_in d1 && dateLeStr req.check_in d2) = true) ∧
    (∀ p ∈ eventPartsOf cityDemand, ∀ nm d1 d2 s e,
      matchEventRegex p.data = some (nm, d1, d2) →
      parseIsoDate d1 = some s → parseIsoDate d2 = some e →
      Date.le s e = true → (req.check_in = s ∨ req.check_in = e) →
      (freshCompute req hotel cityStats cityDemand).eventActive = true) ∧
    (freshCompute req hotel cityStats cityDemand).demandMultiplier ≤ 3 / 2 := by
  have hmul : (freshCompute req hotel cityStats cityDemand).demandMultiplier =
      binaryMultiplier (freshCompute req hotel cityStats cityDemand).isPeakMonth
        (freshCompute req hotel cityStats cityDemand).eventActive := rfl
  have hact : (freshCompute req hotel cityStats cityDemand).eventActive =
      (scanEventParts req.check_in (eventPartsOf cityDemand)).1 := rfl
  refine ⟨?_, rfl, ?_, ?_, ?_⟩
  · rw [hmul]; exact binaryMultiplier_closed _ _
  · rw [hact]; exact scanEventParts_true_iff req.check_in (eventPartsOf cityDemand)
  · intro p hp nm d1 d2 s e hm h1 h2 hse hin
    rw [hact, scanEventParts_true_iff]
    refine ⟨p, hp, nm, d1, d2, hm, ?_⟩
    rcases hin with rfl | rfl
    · simp [dateGeStr, dateLeStr, h1, h2, Date.le_self, hse]
    · simp [dateGeStr, dateLeStr, h1, h2, Date.le_self, hse]
  · rw [hmul]; exact binaryMultiplier_le _ _

/-- Concrete stay request used by witnesses: Jaipur, 2024-10-28 to
2024-10-30. -/
def reqW : StayRequest :=
  { hotel_id := 1, city := "Jaipur", check_in := ⟨2024, 10, 28⟩,
    check_out := ⟨2024, 10, 30⟩, guests := 2, budget_min := none,
    budget_max := none }

/-- Concrete hotel row used by witnesses. -/
def hotelW : Hotel :=
  { hotel_name := "H", city := "Jaipur", rating := some 4,
    number_of_reviews := some 100, price_per_night := 4500 }

/-- Concrete city stats used by witnesses. -/
def statsW : CityStats := { min_price := 4000, avg_price := 5000, max_price := 7500 }

/-- Concrete demand row: October/November peak, one event whose start date
is exactly the witness check-in. -/
def demandW : CityDemandRow :=
  { peak_months := some "10,11", events := some "Diwali (2024-10-28–2024-11-05)" }

/-- Witness for C4: check-in `2024-10-28`, exactly the start date of the
only event, in a peak month: the event is active and the multiplier is the
maximal `1.5`. -/
theorem C4_binary_multiplier_witness :
    (freshCompute reqW hotelW (some statsW) (some demandW)).eventActive = true ∧
      (freshCompute reqW hotelW (some statsW) (some demandW)).demandMultiplier =
        3 / 2 := by
  constructor
  · exact (C4_binary_multiplier reqW hotelW (some statsW) (some demandW)).2.2.2.1
      "Diwali (2024-10-28–2024-11-05)" (by decide) "Diwali" "2024-10-28"
      "2024-11-05" ⟨2024, 10, 28⟩ ⟨2024, 11, 5⟩ (by decide) (by decide) (by decide)
      (by decide) (Or.inl rfl)
  · have h := (C4_binary_multiplier reqW hotelW (some statsW) (some demandW)).1
    rw [h]
    rw [show (freshCompute reqW hotelW (some statsW) (some demandW)).isPeakMonth =
      true from by decide]
    rw [show (freshCompute reqW hotelW (some statsW) (some demandW)).eventActive =
      true from by decide]
    norm_num

/-- C10: when several parsed events contain the check-in date, the scan
stops at the first one (in the order the entries appear in the raw events
string): `event_name` is that first event's trimmed name, the result does
not depend on the remaining entries, and the event contribution enters the
multiplier as a single flag worth `0.30` (never accumulated per event). -/
theorem C10_first_event_name (checkIn : Date) (pre post : List String)
    (p nm d1 d2 : String)
    (hm : matchEventRegex p.data = some (nm, d1, d2))
    (hc : (dateGeStr checkIn d1 && dateLeStr checkIn d2) = true)
    (hpre : ∀ q ∈ pre, ∀ nm2 e1 e2, matchEventRegex q.data = some (nm2, e1, e2) →
      (dateGeStr checkIn e1 && dateLeStr checkIn e2) = false) :
    scanEventParts checkIn (pre ++ p :: post) = (true, some (jsTrim nm)) ∧
      ∀ b : Bool, binaryMultiplier b true = (if b then 1.20 else 1.0) + 0.30 := by
  constructor
  · induction pre with
    | nil =>
      simp only [List.nil_append, scanEventParts, hm]
      rw [if_pos hc]
    | cons q qre ih =>
      have hq := hpre q (List.mem_cons_self q qre)
      have hrest : ∀ r ∈ qre, ∀ nm2 e1 e2,
          matchEventRegex r.data = some (nm2, e1, e2) →
          (dateGeStr checkIn e1 && dateLeStr checkIn e2) = false :=
        fun r hr => hpre r (List.mem_cons_of_mem q hr)
      simp only [List.cons_append, scanEventParts]
      cases hqm : matchEventRegex q.data with
      | none => exact ih hrest
      | some t =>
        obtain ⟨nm2, e1, e2⟩ := t
        dsimp only
        rw [if_neg (by simp [hq nm2 e1 e2 hqm])]
        exact ih hrest
  · intro b; cases b <;> norm_num [binaryMultiplier]

/-- Demand row with two events that both contain the witness check-in. -/
def demandW2 : CityDemandRow :=
  { peak_months := some "10,11",
    events :=
      some "Diwali (2024-10-28–2024-11-05); Mela Festival (2024-11-01–2024-11-10)" }

/-- Witness for C10: check-in `2024-11-02` lies inside both events; the scan
reports the first one (`Diwali`) and the multiplier gains `0.30` once. -/
theorem C10_first_event_name_witness :
    scanEventParts ⟨2024, 11, 2⟩ (eventPartsOf (some demandW2)) =
      (true, some "Diwali") ∧ binaryMultiplier true true = 1.5 := by
  have h := C10_first_event_name ⟨2024, 11, 2⟩ []
    [" Mela Festival (2024-11-01–2024-11-10)"] "Diwali (2024-10-28–2024-11-05)"
    "Diwali" "2024-10-28" "2024-11-05" (by decide) (by decide)
    (by intro q hq; simp at hq)
  constructor
  · have he : eventPartsOf (some demandW2) =
        [] ++ "Diwali (2024-10-28–2024-11-05)" ::
          [" Mela Festival (2024-11-01–2024-11-10)"] := by decide
    rw [he, h.1]; decide
  · rw [h.2 true]; norm_num

/-! ## C1: invariants of the returned recommendation -/

theorem numField_of_true {x : Option Json}
    (h : (match x with
          | some (.num _) => true
          | _ => false) = true) :
    ∃ q : ℚ, x = some (.num q) := by
  cases x with
  | none => simp at h
  | some jx =>
    cases jx with
    | num q => exact ⟨q, rfl⟩
    | null => simp at h
    | bool b => simp at h
    | str t => simp at h
    | arr xs => simp at h
    | obj fs => simp at h

theorem getPriceInsightContent_cases (p : Payload) (t : Option String) :
    getPriceInsightContent p t = fallbackJson p ∨
      validateOk (getPriceInsightContent p t) = true := by
  cases t with
  | none => exact Or.inl rfl
  | some content =>
    simp only [getPriceInsightContent]
    cases htp : tryParseContent content with
    | none => exact Or.inl rfl
    | some j =>
      dsimp only
      by_cases hv : validateOk j = true
      · rw [if_pos hv]; exact Or.inr hv
      · rw [if_neg hv]; exact Or.inl rfl

theorem validateOk_parts {j : Json} (h : validateOk j = true) :
    (∃ c : ℚ, j.getField "confidence_score" = some (.num c) ∧ 0 ≤ c ∧ c ≤ 1) ∧
      (∃ s : String, j.getField "fairness_label" = some (.str s) ∧
        (s = "cheap" ∨ s = "fair" ∨ s = "expensive")) ∧
      (∃ a : ℚ, j.getField "recommended_min_price" = some (.num a)) ∧
      (∃ b : ℚ, j.getField "recommended_max_price" = some (.num b)) := by
  unfold validateOk at h
  simp only [Bool.and_eq_true] at h
  obtain ⟨⟨⟨⟨h1, h2⟩, h3⟩, h4⟩, _h5⟩ := h
  refine ⟨?_, ?_, numField_of_true h1, numField_of_true h2⟩
  · cases hf : j.getField "confidence_score" with
    | none => rw [hf] at h4; simp at h4
    | some jx =>
      rw [hf] at h4
      cases jx with
      | num q =>
        simp only [Bool.and_eq_true, decide_eq_true_eq] at h4
        exact ⟨q, rfl, h4.1, h4.2⟩
      | null => simp at h4
      | bool b => simp at h4
      | str t => simp at h4
      | arr xs => simp at h4
      | obj fs => simp at h4
  · cases hf : j.getField "fairness_label" with
    | none => rw [hf] at h3; simp at h3
    | some jx =>
      rw [hf] at h3
      cases jx with
      | str t =>
        simp only [Bool.or_eq_true, beq_iff_eq] at h3
        exact ⟨t, rfl, or_assoc.mp h3⟩
      | null => simp at h3
      | bool b => simp at h3
      | num q => simp at h3
      | arr xs => simp at h3
      | obj fs => simp at h3

theorem fallbackJson_confidence (p : Payload) :
    (fallbackJson p).getField "confidence_score" = some (.num 0.6) := rfl

theorem fallbackJson_min (p : Payload) :
    (fallbackJson p).getField "recommended_min_price" =
      some (.num (jsRound p.calc_min)) := rfl

theorem fallbackJson_max (p : Payload) :
    (fallbackJson p).getField "recommended_max_price" =
      some (.num (jsRound p.calc_max)) := rfl

theorem fallbackJson_explanation (p : Payload) :
    (fallbackJson p).getField "explanation" =
      some (.str (fallbackExplanation p)) := rfl

theorem fallbackFairness_mem (p : Payload) :
    fallbackFairness p = "cheap" ∨ fallbackFairness p = "fair" ∨
      fallbackFairness p = "expensive" := by
  unfold fallbackFairness
  by_cases h1 : (p.calc_min + p.calc_max) / 2 < p.avg_price * 0.8
  · simp [h1]
  · by_cases h2 : (p.calc_min + p.calc_max) / 2 > p.avg_price * 1.3
    · simp [h1, h2]
    · simp [h1, h2]

/-- C1 (amended): every recommendation returned by
`getPriceInsightFromGemini` has `confidence_score ∈ [0, 1]` and
`fairness_label ∈ \x7bcheap, fair, expensive\x7d` (on the AI path because the
validation checks exactly these, on the fallback path by construction), and
the fallback's range satisfies `recommended_min ≤ recommended_max` whenever
the calculated range is ordered.  The validation does **not** compare
`recommended_min_price` with `recommended_max_price`, so the AI path can
return a recommendation with `min > max` (see the counterexample). -/
theorem C1_returned_recommendation_invariants (p : Payload) (oc : AiOutcome)
    (r : Json) (h : getPriceInsightFromGemini p oc = .ok r) :
    (∃ c : ℚ, r.getField "confidence_score" = some (.num c) ∧ 0 ≤ c ∧ c ≤ 1) ∧
      (∃ s : String, r.getField "fairness_label" = some (.str s) ∧
        (s = "cheap" ∨ s = "fair" ∨ s = "expensive")) ∧
      (r = fallbackJson p → p.calc_min ≤ p.calc_max →
        ∃ a b : ℚ, r.getField "recommended_min_price" = some (.num a) ∧
          r.getField "recommended_max_price" = some (.num b) ∧ a ≤ b) := by
  have hfb : ∀ _ : r = fallbackJson p, p.calc_min ≤ p.calc_max →
      ∃ a b : ℚ, r.getField "recommended_min_price" = some (.num a) ∧
        r.getField "recommended_max_price" = some (.num b) ∧ a ≤ b := by
    rintro rfl hle
    exact ⟨_, _, fallbackJson_min p, fallbackJson_max p,
      Int.cast_le.mpr (jsRound_mono hle)⟩
  cases oc with
  | networkError msg => simp [getPriceInsightFromGemini] at h
  | httpError status bodyText =>
    simp only [getPriceInsightFromGemini] at h
    split at h <;> exact Except.noConfusion h
  | content t =>
    simp only [getPriceInsightFromGemini, Except.ok.injEq] at h
    subst h
    rcases getPriceInsightContent_cases p t with hc | hv
    · refine ⟨?_, ?_, hfb⟩
      · rw [hc]
        exact ⟨0.6, fallbackJson_confidence p, by norm_num, by norm_num⟩
      · rw [hc]
        exact ⟨fallbackFairness p, fallbackJson_label p, fallbackFairness_mem p⟩
    · obtain ⟨hconf, hlab, _, _⟩ := validateOk_parts hv
      exact ⟨hconf, hlab, hfb⟩

/-- An AI reply whose JSON is well-typed but has
`recommended_min_price > recommended_max_price`. -/
def contentBadRange : String :=
  "\x7b\"recommended_min_price\": 500, \"recommended_max_price\": 100, " ++
    "\"fairness_label\": \"fair\", \"confidence_score\": 1, \"explanation\": \"ok\"\x7d"

/-- The parsed form of `contentBadRange`. -/
def jsonBadRange : Json :=
  .obj [("recommended_min_price", .num 500), ("recommended_max_price", .num 100),
        ("fairness_label", .str "fair"), ("confidence_score", .num 1),
        ("explanation", .str "ok")]

set_option maxRecDepth 8000 in
/-- C1 (counterexample): the validation accepts `contentBadRange` and the
object is returned unchanged with `recommended_min_price = 500 >
100 = recommended_max_price`; it is not replaced by the fallback.  This
refutes the claim that every returned recommendation satisfies
`recommended_min ≤ recommended_max`. -/
theorem C1_min_le_max_counterexample :
    getPriceInsightFromGemini payloadLowBoundary
        (.content (some contentBadRange)) = .ok jsonBadRange ∧
      jsonBadRange.getField "recommended_min_price" = some (.num 500) ∧
      jsonBadRange.getField "recommended_max_price" = some (.num 100) ∧
      ¬((500 : ℚ) ≤ 100) ∧
      jsonBadRange ≠ fallbackJson payloadLowBoundary := by
  refine ⟨rfl, rfl, rfl, by norm_num, ?_⟩
  intro heq
  have h0 : (some (Json.num 1) : Option Json) = some (Json.num 0.6) :=
    calc (some (Json.num 1) : Option Json)
        = jsonBadRange.getField "confidence_score" := rfl
      _ = (fallbackJson payloadLowBoundary).getField "confidence_score" := by
          rw [heq]
      _ = some (Json.num 0.6) := fallbackJson_confidence _
  have h1 : (1 : ℚ) = 0.6 := by
    injection h0 with h2
    injection h2
  norm_num at h1

/-- Witness for C1 (amended): the fallback at `payloadLowBoundary` is an
`ok` result whose confidence and label satisfy the invariants. -/
theorem C1_returned_recommendation_invariants_witness :
    (∃ c : ℚ, (fallbackJson payloadLowBoundary).getField "confidence_score" =
        some (.num c) ∧ 0 ≤ c ∧ c ≤ 1) ∧
      (∃ s : String, (fallbackJson payloadLowBoundary).getField "fairness_label" =
        some (.str s) ∧ (s = "cheap" ∨ s = "fair" ∨ s = "expensive")) := by
  have h := C1_returned_recommendation_invariants payloadLowBoundary
    (.content none) (fallbackJson payloadLowBoundary) rfl
  exact ⟨h.1, h.2.1⟩

/-! ## C2: the deterministic fallback -/

theorem jsRound_intCast (a : ℤ) : jsRound ((a : ℚ)) = a := by
  unfold jsRound
  rw [Int.floor_eq_iff]
  constructor <;> norm_num

theorem getPriceInsightContent_fallback (p : Payload) (c : Option String)
    (hfail : ((c.bind tryParseContent).all fun j => !validateOk j) = true) :
    getPriceInsightContent p c = fallbackJson p := by
  cases c with
  | none => rfl
  | some content =>
    simp only [getPriceInsightContent]
    cases htp : tryParseContent content with
    | none => rfl
    | some j =>
      dsimp only
      have hv : validateOk j = false := by
        have h2 : Option.all (fun j => !validateOk j) (some j) = true := by
          rw [← htp]
          exact hfail
        simpa using h2
      rw [if_neg (by simp [hv])]

/-- C2 (amended): on every parse/validation failure of the AI reply —
missing content, text that neither parses directly nor via the brace-block
extraction, or a parsed object failing validation — the AI helper returns
(without any retry; the model takes the one call's outcome) the
deterministic fallback: range = the rounded calculated range (unchanged
whenever that range is integral, as the orchestrator always passes),
fairness from the midpoint thresholds, confidence exactly `0.6`, and the
explanation concatenated from the fixed fragments conditioned on
`is_peak_month` and `event_active`.  (Network errors and non-2xx statuses
do *not* reach this fallback: they throw — see the counterexample.) -/
theorem C2_fallback_recommendation (p : Payload) (c : Option String)
    (hfail : ((c.bind tryParseContent).all fun j => !validateOk j) = true) :
    getPriceInsightFromGemini p (.content c) = .ok (fallbackJson p) ∧
      (fallbackJson p).getField "confidence_score" = some (.num 0.6) ∧
      (∀ a b : ℤ, p.calc_min = (a : ℚ) → p.calc_max = (b : ℚ) →
        (fallbackJson p).getField "recommended_min_price" = some (.num (a : ℚ)) ∧
          (fallbackJson p).getField "recommended_max_price" = some (.num (b : ℚ))) ∧
      (fallbackJson p).getField "fairness_label" =
        some (.str (if (p.calc_min + p.calc_max) / 2 < p.avg_price * 0.8 then "cheap"
          else if (p.calc_min + p.calc_max) / 2 > p.avg_price * 1.3 then "expensive"
          else "fair")) ∧
      (fallbackJson p).getField "explanation" =
        some (.str ("Price recommendation based on demand analysis. " ++
          (if p.is_peak_month then "Peak season pricing applies. " else "") ++
          (if p.event_active then
            jsShow p.event_name ++ " is happening during your dates. "
           else "") ++ "This is a calculated estimate.")) := by
  refine ⟨?_, fallbackJson_confidence p, ?_, ?_, ?_⟩
  · simp only [getPriceInsightFromGemini]
    rw [getPriceInsightContent_fallback p c hfail]
  · rintro a b ha hb
    refine ⟨?_, ?_⟩
    · rw [fallbackJson_min p, ha, jsRound_intCast]
    · rw [fallbackJson_max p, hb, jsRound_intCast]
  · rw [fallbackJson_label p]
    rfl
  · rw [fallbackJson_explanation p]
    rfl

/-- Witness for C2: missing AI content (`text` absent) yields the fallback
with all the stated fields, at `payloadLowBoundary` (calculated range
`[3000, 5000]`, both integral). -/
theorem C2_fallback_recommendation_witness :
    getPriceInsightFromGemini payloadLowBoundary (.content none) =
        .ok (fallbackJson payloadLowBoundary) ∧
      (fallbackJson payloadLowBoundary).getField "recommended_min_price" =
        some (.num ((3000 : ℤ) : ℚ)) := by
  have h := C2_fallback_recommendation payloadLowBoundary none rfl
  exact ⟨h.1, (h.2.2.1 3000 5000 (by norm_num [payloadLowBoundary])
    (by norm_num [payloadLowBoundary])).1⟩

/-- C2 (counterexample): a non-2xx AI response (HTTP 500, body `boom`)
does **not** produce a fallback recommendation — the helper throws, so the
claim that every AI-call failure (including non-2xx statuses and network
errors) returns the deterministic fallback is false. -/
theorem C2_http_error_counterexample :
    getPriceInsightFromGemini payloadLowBoundary (.httpError 500 "boom") =
      .error "Gemini API returned 500: boom" := rfl

/-! ## C3: 429 vs 500 error handling -/

/-- C3: when the AI provider answers HTTP 429 (and the request reaches the
AI call, i.e. the cache missed), the overall response is HTTP 429 with the
rate-limit-specific friendly message in the `\x7berror, code, timestamp\x7d`
shape; any other non-2xx provider status yields HTTP 500 with the generic
message; and the catch maps every error message that does not carry the
rate-limit marker to HTTP 500 — the 429 case is never folded into it. -/
theorem C3_rate_limit_status (db : List PredictionRecord) (req : StayRequest)
    (hotel : Hotel) (cityStats : Option CityStats)
    (cityDemand : Option CityDemandRow) (now : ℚ) (nowIso body : String)
    (hmiss : cacheLookup db req (now - 24) = none) :
    (serve db req hotel cityStats cityDemand true (.httpError 429 body) now
        nowIso =
      (.failure 429
        ⟨"Our AI service is currently busy. Please wait a minute and try again.",
          429, nowIso⟩, db)) ∧
    (∀ status : Nat, status ≠ 429 →
      serve db req hotel cityStats cityDemand true (.httpError status body) now
          nowIso =
        (.failure 500
          ⟨"Gemini API returned " ++ toString status ++ ": " ++ strTake body 200,
            500, nowIso⟩, db)) ∧
    (∀ msg : String, strStartsWith msg "RATE_LIMIT:" = false →
      handleCatch msg nowIso = .failure 500 ⟨msg, 500, nowIso⟩) := by
  refine ⟨?_, ?_, ?_⟩
  · simp only [serve, handleRequest, hmiss]
    rfl
  · intro status hs
    have h429 : (status == 429) = false := by simpa using hs
    have hge : getPriceInsightFromGemini
        (freshCompute req hotel cityStats cityDemand).payload
          (.httpError status body) =
        .error ("Gemini API returned " ++ toString status ++ ": " ++
          strTake body 200) := by
      simp [getPriceInsightFromGemini, h429]
    have hpre : strStartsWith
        ("Gemini API returned " ++ toString status ++ ": " ++ strTake body 200)
        "RATE_LIMIT:" = false := rfl
    simp only [serve, handleRequest, hmiss, hge]
    simp [handleCatch, hpre]
  · intro msg h
    simp [handleCatch, h]

/-- Witness for C3 on an empty cache: the 429 outcome produces the friendly
429 response. -/
theorem C3_rate_limit_status_witness :
    serve [] reqW hotelW none none true (.httpError 429 "quota") 100
        "2024-10-01T00:00:00Z" =
      (.failure 429
        ⟨"Our AI service is currently busy. Please wait a minute and try again.",
          429, "2024-10-01T00:00:00Z"⟩, []) :=
  (C3_rate_limit_status [] reqW hotelW none none 100 "2024-10-01T00:00:00Z"
    "quota" rfl).1

/-! ## C6: the weighted-score demand model -/

theorem foldl_add_impact (l : List EventInfo) (init : ℚ) :
    l.foldl (fun acc ev => acc + impactScore ev.impact) init =
      init + (l.map (fun ev => impactScore ev.impact)).sum := by
  induction l generalizing init with
  | nil => simp
  | cons e rest ih => simp [ih, add_assoc]

/-- C6: in `calculateDemandContext` the demand score is the peak-month
contribution (`0.3`) plus the sum of the severity weights (`0.1`/`0.2`/
`0.3`/`0.4` for low/medium/high/very_high, classified by keyword matching
inside `parseEvents`) of the events overlapping the stay (check-in inside
the event, check-out inside it, or the event contained in the stay), capped
at `1.0`; and `calculatePriceRange` scales both ends by
`1 + demand_score * 0.5`, rounding to whole currency units. -/
theorem C6_weighted_model (cityDemand : Option CityDemandRow)
    (checkIn checkOut : Date) (baseMin baseMax : ℚ) :
    ((calculateDemandContext cityDemand checkIn checkOut).demand_score =
      min ((if peakIncludes (parsePeakMonths (cityDemand.bind (·.peak_months)))
              ((getMonthNumber checkIn : Int)) then 0.3 else 0) +
          (((parseEvents (cityDemand.bind (·.events))).filter
              (eventOverlaps checkIn checkOut)).map
            (fun ev => impactScore ev.impact)).sum) 1) ∧
      (calculateDemandContext cityDemand checkIn checkOut).demand_score ≤ 1 ∧
      (impactScore .low = 0.1 ∧ impactScore .medium = 0.2 ∧
        impactScore .high = 0.3 ∧ impactScore .very_high = 0.4) ∧
      ((calculateDemandContext cityDemand checkIn checkOut).events =
        (parseEvents (cityDemand.bind (·.events))).filter
          (eventOverlaps checkIn checkOut)) ∧
      (calculatePriceRange baseMin baseMax
          (calculateDemandContext cityDemand checkIn checkOut).demand_score =
        (jsRound (baseMin *
            (1 + (calculateDemandContext cityDemand checkIn
              checkOut).demand_score * 0.5)),
          jsRound (baseMax *
            (1 + (calculateDemandContext cityDemand checkIn
              checkOut).demand_score * 0.5)))) := by
  refine ⟨?_, ?_, ⟨rfl, rfl, rfl, rfl⟩, rfl, rfl⟩
  · show min ((parseEvents (cityDemand.bind (·.events))).filter
        (eventOverlaps checkIn checkOut) |>.foldl
          (fun acc ev => acc + impactScore ev.impact)
          (if peakIncludes (parsePeakMonths (cityDemand.bind (·.peak_months)))
              ((getMonthNumber checkIn : Int)) then 0.3 else 0)) 1 = _
    rw [foldl_add_impact]
  · show min _ (1 : ℚ) ≤ 1
    exact min_le_right _ _

/-! ## C7: AI-reply parsing and extraction -/

theorem dropWhile_append_of_all {α} (p : α → Bool) (l1 l2 : List α)
    (h : ∀ a ∈ l1, p a = true) :
    (l1 ++ l2).dropWhile p = l2.dropWhile p := by
  induction l1 with
  | nil => rfl
  | cons x xs ih =>
    simp only [List.cons_append, List.dropWhile_cons,
      h x (List.mem_cons_self x xs), if_true]
    exact ih fun a ha => h a (List.mem_cons_of_mem x ha)

/-- C7 (amended): the returned text is parsed directly as JSON first (a
direct parse is always used when it succeeds); when the direct parse fails,
the pattern-match extraction takes the substring from the **first** open
brace to the **last** close brace — so a JSON object wrapped in prose or
markdown is recovered exactly when the wrapper contains no further brace
(no `\x7b` before the object, no `\x7d` after it); and a parsed object that
passes validation is returned with its fields unchanged (no
transformation). -/
theorem C7_parse_extraction (p : Payload) :
    (∀ c : String, ∀ j : Json, jsonParse c = some j → tryParseContent c = some j) ∧
      (∀ pre core post : List Char, lbrace ∉ pre → rbrace ∉ post →
        extractBraceBlock (String.mk (pre ++ (lbrace :: core ++ [rbrace]) ++ post)) =
          some (String.mk (lbrace :: core ++ [rbrace]))) ∧
      (∀ c : String, ∀ j : Json, tryParseContent c = some j →
        validateOk j = true →
        getPriceInsightFromGemini p (.content (some c)) = .ok j) := by
  refine ⟨?_, ?_, ?_⟩
  · intro c j h
    simp only [tryParseContent, h]
  · intro pre core post hpre hpost
    have htail : (pre ++ (lbrace :: core ++ [rbrace]) ++ post).dropWhile
        (fun c => !(c == lbrace)) = lbrace :: (core ++ [rbrace] ++ post) := by
      rw [List.append_assoc]
      rw [dropWhile_append_of_all _ pre _ (fun a ha => by
        have hne : a ≠ lbrace := fun h => hpre (h ▸ ha)
        simp [hne])]
      rw [show (lbrace :: core ++ [rbrace]) ++ post =
        lbrace :: (core ++ [rbrace] ++ post) by simp]
      rw [List.dropWhile_cons]
      simp
    have htrim : ((lbrace :: (core ++ [rbrace] ++ post)).reverse).dropWhile
        (fun c => !(c == rbrace)) = rbrace :: (core.reverse ++ [lbrace]) := by
      rw [show (lbrace :: (core ++ [rbrace] ++ post)).reverse =
        post.reverse ++ (rbrace :: (core.reverse ++ [lbrace])) by simp]
      rw [dropWhile_append_of_all _ post.reverse _ (fun a ha => by
        have hne : a ≠ rbrace := fun h => hpost (h ▸ (List.mem_reverse.mp ha))
        simp [hne])]
      rw [List.dropWhile_cons]
      simp
    simp only [extractBraceBlock, String.data]
    rw [htail, htrim]
    rw [show (rbrace :: (core.reverse ++ [lbrace])).reverse =
      lbrace :: core ++ [rbrace] by simp]
    rw [if_pos (by
      simp only [List.length_cons, List.length_append, List.length_singleton]
      omega)]
  · intro c j h hv
    simp only [getPriceInsightFromGemini, getPriceInsightContent, h]
    rw [if_pos hv]

/-- A valid AI JSON object (integer fields keep the evaluation concrete). -/
def contentGoodObj : String :=
  "\x7b\"recommended_min_price\": 4000, \"recommended_max_price\": 5000, " ++
    "\"fairness_label\": \"fair\", \"confidence_score\": 1, \"explanation\": \"ok\"\x7d"

/-- The parsed form of `contentGoodObj`. -/
def jsonGoodObj : Json :=
  .obj [("recommended_min_price", .num 4000), ("recommended_max_price", .num 5000),
        ("fairness_label", .str "fair"), ("confidence_score", .num 1),
        ("explanation", .str "ok")]

set_option maxRecDepth 8000 in
/-- Witness for C7 (amended): the object wrapped in brace-free prose is
extracted, validated and returned unchanged. -/
theorem C7_parse_extraction_witness :
    getPriceInsightFromGemini payloadLowBoundary
        (.content (some ("Sure! " ++ contentGoodObj ++ " Enjoy."))) =
      .ok jsonGoodObj := by
  apply (C7_parse_extraction payloadLowBoundary).2.2
  · rfl
  · decide

set_option maxRecDepth 8000 in
/-- C7 (counterexample): the same valid object wrapped in prose whose tail
contains one more close brace is **not** recovered — the greedy extraction
spans to the last close brace, the parse fails, and the deterministic
fallback is returned.  This refutes the claim that *any* reply consisting
of a JSON object wrapped in prose is extracted and validated successfully
(and with several objects the extraction is not "the first top-level
block" either). -/
theorem C7_wrapped_prose_counterexample :
    jsonParse contentGoodObj = some jsonGoodObj ∧
      validateOk jsonGoodObj = true ∧
      getPriceInsightContent payloadLowBoundary
          (some ("Here you go: " ++ contentGoodObj ++ " :-) \x7d")) =
        fallbackJson payloadLowBoundary :=
  ⟨rfl, by decide, rfl⟩

/-! ## C5: cache idempotence -/

/-- The fold of `cacheLookup` never turns a populated accumulator back into
`none`. -/
theorem cacheFold_ne_none (l : List PredictionRecord) (a : PredictionRecord) :
    l.foldl
      (fun acc r =>
        match acc with
        | none => some r
        | some a => if a.created_at < r.created_at then some r else some a)
      (some a) ≠ none := by
  induction l generalizing a with
  | nil => simp
  | cons r rest ih =>
    simp only [List.foldl_cons]
    by_cases h : a.created_at < r.created_at
    · rw [if_pos h]; exact ih r
    · rw [if_neg h]; exact ih a

theorem cacheLookup_eq_none_iff (db : List PredictionRecord) (req : StayRequest)
    (cutoff : ℚ) :
    cacheLookup db req cutoff = none ↔ windowMatches db req cutoff = [] := by
  unfold cacheLookup
  constructor
  · intro h
    cases hw : windowMatches db req cutoff with
    | nil => rfl
    | cons r rest =>
      rw [hw] at h
      simp only [List.foldl_cons] at h
      exact absurd h (cacheFold_ne_none rest r)
  · intro h
    rw [h]
    rfl

theorem windowMatches_nil_of_le (db : List PredictionRecord) (req : StayRequest)
    (c1 c2 : ℚ) (h12 : c1 ≤ c2) (h : windowMatches db req c1 = []) :
    windowMatches db req c2 = [] := by
  unfold windowMatches at h ⊢
  rw [List.filter_eq_nil_iff] at h ⊢
  intro r hr
  have h1 := h r hr
  simp only [Bool.and_eq_true, decide_eq_true_eq, not_and] at h1 ⊢
  intro hm hc
  exact h1 hm (le_trans h12 hc)

theorem matchesKey_freshRecord (req : StayRequest) (fd : FreshData) (aiRec : Json)
    (now : ℚ) : matchesKey (freshRecord req fd aiRec now) req = true := by
  simp [matchesKey, freshRecord]

/-- `order desc / limit 1` picks the strictly latest matching record. -/
theorem cacheLookup_latest (db : List PredictionRecord) (req : StayRequest)
    (cutoff : ℚ) (r : PredictionRecord) (hr : r ∈ windowMatches db req cutoff)
    (hlatest : ∀ r' ∈ windowMatches db req cutoff, r' ≠ r →
      r'.created_at < r.created_at) :
    cacheLookup db req cutoff = some r := by
  unfold cacheLookup
  have main : ∀ (l : List PredictionRecord), r ∈ l →
      (∀ r' ∈ l, r' ≠ r → r'.created_at < r.created_at) →
      ∀ acc : Option PredictionRecord,
        (∀ a, acc = some a → a.created_at < r.created_at ∨ a = r) →
        l.foldl
          (fun acc r =>
            match acc with
            | none => some r
            | some a => if a.created_at < r.created_at then some r else some a)
          acc = some r := by
    intro l
    induction l with
    | nil => intro hmem; exact absurd hmem (List.not_mem_nil r)
    | cons x xs ih =>
      intro hmem hothers acc hacc
      simp only [List.foldl_cons]
      by_cases hx : x = r
      · subst hx
        have hnext : ∀ a, (match acc with
            | none => some x
            | some a => if a.created_at < x.created_at then some x else some a) =
              some a → a.created_at < x.created_at ∨ a = x := by
          intro a ha
          cases acc with
          | none =>
            right
            exact (Option.some.inj ha).symm
          | some b =>
            rcases hacc b rfl with hb | hb
            · dsimp only at ha
              rw [if_pos hb] at ha
              right
              exact (Option.some.inj ha).symm
            · subst hb
              dsimp only at ha
              rw [if_neg (lt_irrefl _)] at ha
              right
              exact (Option.some.inj ha).symm
        by_cases hmem2 : x ∈ xs
        · exact ih hmem2 (fun r' h' => hothers r' (List.mem_cons_of_mem x h')) _
            hnext
        · -- x does not recur: every element of xs is strictly below x
          have hbelow : ∀ r' ∈ xs, r'.created_at < x.created_at := by
            intro r' h'
            have : r' ≠ x := fun he => hmem2 (he ▸ h')
            exact hothers r' (List.mem_cons_of_mem x h') this
          have hkeep : ∀ (l2 : List PredictionRecord),
              (∀ r' ∈ l2, r'.created_at < x.created_at) →
              l2.foldl
                (fun acc r =>
                  match acc with
                  | none => some r
                  | some a => if a.created_at < r.created_at then some r
                      else some a)
                (some x) = some x := by
            intro l2
            induction l2 with
            | nil => intro _; rfl
            | cons y ys ihy =>
              intro hy
              simp only [List.foldl_cons]
              rw [if_neg (not_lt_of_gt (hy y (List.mem_cons_self y ys)))]
              exact ihy fun r' h' => hy r' (List.mem_cons_of_mem y h')
          cases acc with
          | none => exact hkeep xs hbelow
          | some b =>
            rcases hacc b rfl with hb | hb
            · dsimp only
              rw [if_pos hb]
              exact hkeep xs hbelow
            · subst hb
              dsimp only
              rw [if_neg (lt_irrefl _)]
              exact hkeep xs hbelow
      · have hxmem : r ∈ xs := by
          rcases List.mem_cons.mp hmem with h | h
          · exact absurd h.symm hx
          · exact h
        have hxlt : x.created_at < r.created_at :=
          hothers x (List.mem_cons_self x xs) hx
        refine ih hxmem (fun r' h' => hothers r' (List.mem_cons_of_mem x h')) _ ?_
        intro a ha
        cases acc with
        | none =>
          left
          rw [← Option.some.inj ha]
          exact hxlt
        | some b =>
          rcases hacc b rfl with hb | hb
          · dsimp only at ha
            by_cases hbx : b.created_at < x.created_at
            · rw [if_pos hbx] at ha
              left
              rw [← Option.some.inj ha]
              exact hxlt
            · rw [if_neg hbx] at ha
              left
              rw [← Option.some.inj ha]
              exact hb
          · subst hb
            dsimp only at ha
            by_cases hbx : b.created_at < x.created_at
            · rw [if_pos hbx] at ha
              left
              rw [← Option.some.inj ha]
              exact hxlt
            · rw [if_neg hbx] at ha
              right
              exact (Option.some.inj ha).symm
  exact main _ hr hlatest none (by intro a h; exact Option.noConfusion h)

theorem lookupLast_append (fs ex : List (String × Json)) (k : String) :
    lookupLast (fs ++ ex) k =
      ex.foldl (fun acc kv => if kv.1 == k then some kv.2 else acc)
        (lookupLast fs k) := by
  unfold lookupLast
  rw [List.foldl_append]

theorem lookupLast_concat_skip (fs ex : List (String × Json)) (k : String)
    (hk : (ex.all fun kv => !(kv.1 == k)) = true) :
    lookupLast (fs ++ ex) k = lookupLast fs k := by
  rw [lookupLast_append]
  generalize lookupLast fs k = acc
  induction ex generalizing acc with
  | nil => rfl
  | cons kv rest ih =>
    simp only [List.all_cons, Bool.and_eq_true, Bool.not_eq_true'] at hk
    simp only [List.foldl_cons]
    rw [if_neg (by simp [hk.1])]
    exact ih hk.2 acc

theorem getField_storedGemini_of_not_ctx (fd : FreshData) (j : Json)
    (hobj : j.isObj = true) (k : String)
    (hk : ((["is_peak_month", "event_active", "event_name",
        "demand_multiplier"] : List String).all fun t => !(t == k)) = true) :
    (storedGemini fd j).getField k = j.getField k := by
  cases j with
  | obj fs =>
    show lookupLast (fs ++ _) k = lookupLast fs k
    apply lookupLast_concat_skip
    simpa using hk
  | null => exact Bool.noConfusion hobj
  | bool b => exact Bool.noConfusion hobj
  | num q => exact Bool.noConfusion hobj
  | str t => exact Bool.noConfusion hobj
  | arr xs => exact Bool.noConfusion hobj

theorem getField_storedGemini_peak (fd : FreshData) (j : Json) :
    (storedGemini fd j).getField "is_peak_month" =
      some (.bool fd.isPeakMonth) := by
  cases j <;>
    simp only [storedGemini, jsonSpread, Json.getField, lookupLast_append] <;> rfl

theorem getField_storedGemini_active (fd : FreshData) (j : Json) :
    (storedGemini fd j).getField "event_active" =
      some (.bool fd.eventActive) := by
  cases j <;>
    simp only [storedGemini, jsonSpread, Json.getField, lookupLast_append] <;> rfl

theorem getField_storedGemini_name (fd : FreshData) (j : Json) :
    (storedGemini fd j).getField "event_name" =
      some (match fd.eventName with
            | some s => .str s
            | none => .null) := by
  cases j <;>
    simp only [storedGemini, jsonSpread, Json.getField, lookupLast_append] <;> rfl

theorem getField_storedGemini_multiplier (fd : FreshData) (j : Json) :
    (storedGemini fd j).getField "demand_multiplier" =
      some (.num fd.demandMultiplier) := by
  cases j <;>
    simp only [storedGemini, jsonSpread, Json.getField, lookupLast_append] <;> rfl

theorem getPriceInsightContent_isObj (p : Payload) (t : Option String) :
    (getPriceInsightContent p t).isObj = true := by
  rcases getPriceInsightContent_cases p t with hc | hv
  · rw [hc]; rfl
  · obtain ⟨⟨c', hconf, _⟩, _, _, _⟩ := validateOk_parts hv
    cases hj : getPriceInsightContent p t with
    | obj fs => rfl
    | null => rw [hj] at hconf; exact Option.noConfusion hconf
    | bool b => rw [hj] at hconf; exact Option.noConfusion hconf
    | num q => rw [hj] at hconf; exact Option.noConfusion hconf
    | str s2 => rw [hj] at hconf; exact Option.noConfusion hconf
    | arr xs => rw [hj] at hconf; exact Option.noConfusion hconf

/-- C5: two identical requests inside the 24-hour window.  The first (on a
cache miss) computes fresh, appends exactly one record and answers with
`cached = false`; the second finds that record (no further append,
`cached = true`) and returns the same recommendation fields and the same
demand context.  The final conjunct is the lookup rule in general: among
several matching in-window records the strictly latest one wins. -/
theorem C5_cache_idempotence (db : List PredictionRecord) (req : StayRequest)
    (hotel : Hotel) (cityStats : Option CityStats)
    (cityDemand : Option CityDemandRow) (c : Option String) (t0 t1 : ℚ)
    (hmiss : cacheLookup db req (t0 - 24) = none) (ht01 : t0 ≤ t1)
    (hwin : t1 - 24 ≤ t0)
    (hname : (freshCompute req hotel cityStats cityDemand).eventName ≠ some "") :
    (∃ r1 db1 r2 db2 rec,
      handleRequest db req hotel cityStats cityDemand true (.content c) t0 =
          .ok (r1, db1) ∧
        db1 = db ++ [rec] ∧
        handleRequest db1 req hotel cityStats cityDemand true (.content c) t1 =
          .ok (r2, db2) ∧
        db2 = db1 ∧
        r1.cached = false ∧ r2.cached = true ∧
        (∀ f ∈ (["recommended_min_price", "recommended_max_price",
            "fairness_label", "confidence_score", "explanation"] : List String),
          r2.ai_recommendation.getField f = r1.ai_recommendation.getField f) ∧
        r2.is_peak_month = r1.is_peak_month ∧
        r2.event_active = r1.event_active ∧
        r2.event_name = r1.event_name ∧
        r2.demand_multiplier = r1.demand_multiplier) ∧
      (∀ (db' : List PredictionRecord) (req' : StayRequest) (cutoff : ℚ)
          (r : PredictionRecord), r ∈ windowMatches db' req' cutoff →
        (∀ r' ∈ windowMatches db' req' cutoff, r' ≠ r →
          r'.created_at < r.created_at) →
        cacheLookup db' req' cutoff = some r) := by
  refine ⟨?_, cacheLookup_latest⟩
  set fd := freshCompute req hotel cityStats cityDemand with hfd
  set aiRec := getPriceInsightContent fd.payload c with hai
  set rec := freshRecord req fd aiRec t0 with hrec
  refine ⟨freshResponse fd aiRec, db ++ [rec], cachedResponse rec, db ++ [rec],
    rec, ?_, rfl, ?_, rfl, rfl, rfl, ?_, ?_, ?_, ?_, ?_⟩
  · simp only [handleRequest, hmiss]
    rfl
  · have hwm : windowMatches (db ++ [rec]) req (t1 - 24) = [rec] := by
      unfold windowMatches
      rw [List.filter_append]
      have h1 : windowMatches db req (t1 - 24) = [] :=
        windowMatches_nil_of_le db req (t0 - 24) (t1 - 24)
          (sub_le_sub_right ht01 24) ((cacheLookup_eq_none_iff _ _ _).mp hmiss)
      rw [show List.filter
          (fun r => matchesKey r req && decide (t1 - 24 ≤ r.created_at)) db =
        windowMatches db req (t1 - 24) from rfl, h1]
      simp only [List.nil_append, List.filter_cons, List.filter_nil]
      rw [if_pos]
      simp only [Bool.and_eq_true, decide_eq_true_eq]
      exact ⟨matchesKey_freshRecord req fd aiRec t0, hwin⟩
    have hlook : cacheLookup (db ++ [rec]) req (t1 - 24) = some rec := by
      unfold cacheLookup
      rw [hwm]
      rfl
    simp only [handleRequest, hlook]
  · intro f hf
    have hobj : aiRec.isObj = true := getPriceInsightContent_isObj fd.payload c
    have : (cachedResponse rec).ai_recommendation = storedGemini fd aiRec := rfl
    rw [this]
    have : (freshResponse fd aiRec).ai_recommendation = aiRec := rfl
    rw [this]
    apply getField_storedGemini_of_not_ctx fd aiRec hobj
    fin_cases hf <;> decide
  · show jsBoolFieldOr ((storedGemini fd aiRec).getField "is_peak_month") = _
    rw [getField_storedGemini_peak]
    rfl
  · show jsBoolFieldOr ((storedGemini fd aiRec).getField "event_active") = _
    rw [getField_storedGemini_active]
    rfl
  · show jsStrFieldOrNull ((storedGemini fd aiRec).getField "event_name") =
      fd.eventName
    rw [getField_storedGemini_name]
    cases he : fd.eventName with
    | none => rfl
    | some s =>
      have hs : s ≠ "" := fun h => hname (by rw [he, h])
      show (if (s == "") = true then none else some s) = some s
      rw [if_neg (by simp [hs])]
  · show jsNumFieldOr ((storedGemini fd aiRec).getField "demand_multiplier") 1.0 =
      fd.demandMultiplier
    rw [getField_storedGemini_multiplier]
    have h1 : (1 : ℚ) ≤ fd.demandMultiplier :=
      binaryMultiplier_ge_one fd.isPeakMonth fd.eventActive
    have hne : fd.demandMultiplier ≠ 0 := by intro h; rw [h] at h1; norm_num at h1
    show (if (fd.demandMultiplier == 0) = true then 1.0 else fd.demandMultiplier) =
      fd.demandMultiplier
    rw [if_neg (by simp [hne])]

/-- Witness for C5: empty cache, identical requests at hour 100 and hour
110 (inside the 24-hour window). -/
theorem C5_cache_idempotence_witness :
    (∃ r1 db1 r2 db2 rec,
      handleRequest [] reqW hotelW (some statsW) none true (.content none) 100 =
          .ok (r1, db1) ∧
        db1 = [] ++ [rec] ∧
        handleRequest db1 reqW hotelW (some statsW) none true (.content none)
            110 =
          .ok (r2, db2) ∧
        db2 = db1 ∧
        r1.cached = false ∧ r2.cached = true ∧
        (∀ f ∈ (["recommended_min_price", "recommended_max_price",
            "fairness_label", "confidence_score", "explanation"] : List String),
          r2.ai_recommendation.getField f = r1.ai_recommendation.getField f) ∧
        r2.is_peak_month = r1.is_peak_month ∧
        r2.event_active = r1.event_active ∧
        r2.event_name = r1.event_name ∧
        r2.demand_multiplier = r1.demand_multiplier) ∧
      (∀ (db' : List PredictionRecord) (req' : StayRequest) (cutoff : ℚ)
          (r : PredictionRecord), r ∈ windowMatches db' req' cutoff →
        (∀ r' ∈ windowMatches db' req' cutoff, r' ≠ r →
          r'.created_at < r.created_at) →
        cacheLookup db' req' cutoff = some r) :=
  C5_cache_idempotence [] reqW hotelW (some statsW) none none 100 110 rfl
    (by norm_num) (by norm_num) (by decide)

end WanderStay
